import Mathlib

/-!
Verification of the typed-value layer in
`grr/core/grr_response_core/lib/rdfvalue.py`.

The Python module is shallowly embedded: each value kind's payload is
modelled by its mathematical content (byte strings and unicode text as
`String` at codec granularity, integers as `ℤ`), fallible parsing returns
`Except PyExc`, and the class of a raised Python exception is tracked by
the `PyExc` inductive.  Python `//` and `%` on integers are floor division
and floor modulus, rendered here with `Int.fdiv` / `Int.emod`.
-/

namespace GrrRdf

/-- The dynamic class of a raised Python exception.  In the source,
`DecodeError` subclasses both `InitializeError` and `ValueError`; the
model tracks the concrete class that is raised, which is what `except`
clauses dispatch on. -/
inductive PyExc where
  | valueError
  | typeError
  | decodeError
  | initializeError
  | runtimeError
deriving DecidableEq, Repr

instance exceptDecEq {ε α : Type} [DecidableEq ε] [DecidableEq α] :
    DecidableEq (Except ε α) := fun x y =>
  match x, y with
  | .ok a, .ok b => if h : a = b then isTrue (by rw [h]) else isFalse (by simp [h])
  | .error a, .error b => if h : a = b then isTrue (by rw [h]) else isFalse (by simp [h])
  | .ok _, .error _ => isFalse (by simp)
  | .error _, .ok _ => isFalse (by simp)

/-! ## Python `int(string)` and `str(int)`

`RDFInteger.SerializeToString` is `str(self._value)`;
`RDFInteger.ParseFromString` calls `int(string)`.  We model the decimal
text forms over `List Char`: `int()` strips surrounding ASCII whitespace
and accepts an optional sign followed by one or more decimal digits. -/

/-- ASCII decimal digit test, as `str.isdigit` / `int()` digit acceptance
behaves on Python 2 byte strings. -/
def isDig (c : Char) : Bool := 48 ≤ c.toNat && c.toNat ≤ 57

/-- ASCII whitespace stripped by Python's `int()`. -/
def isPyWs (c : Char) : Bool :=
  c.toNat = 32 || c.toNat = 9 || c.toNat = 10 || c.toNat = 13 ||
  c.toNat = 11 || c.toNat = 12

/-- Strip leading and trailing whitespace from a character list. -/
def trimWs (l : List Char) : List Char :=
  ((l.dropWhile isPyWs).reverse.dropWhile isPyWs).reverse

/-- Value of a big-endian list of decimal digit characters. -/
def decDigitsVal (l : List Char) : ℕ :=
  l.foldl (fun a c => 10 * a + (c.toNat - 48)) 0

/-- Optional sign followed by one or more decimal digits. -/
def pyIntSignDigits : List Char → Option ℤ
  | [] => none
  | c :: rest =>
    if c = '-' then
      if rest ≠ [] ∧ rest.all isDig then some (-(decDigitsVal rest : ℤ)) else none
    else if c = '+' then
      if rest ≠ [] ∧ rest.all isDig then some ((decDigitsVal rest : ℤ)) else none
    else if (c :: rest).all isDig then some ((decDigitsVal (c :: rest) : ℤ)) else none

/-- Python `int(string)` on a byte string: strip whitespace, optional
sign, then decimal digits; `none` models the raised `ValueError`. -/
def pyIntParseCore (l : List Char) : Option ℤ :=
  pyIntSignDigits (trimWs l)

/-- Python `int(string)` on a `String`. -/
def pyIntParse (s : String) : Option ℤ := pyIntParseCore s.data

/-- The decimal digit character for `d < 10`. -/
def decChar (d : ℕ) : Char :=
  match d with
  | 0 => '0' | 1 => '1' | 2 => '2' | 3 => '3' | 4 => '4'
  | 5 => '5' | 6 => '6' | 7 => '7' | 8 => '8' | _ => '9'

/-- Decimal rendering of a natural number, as Python `str`. -/
def natToDecChars (n : ℕ) : List Char :=
  if n = 0 then ['0'] else (Nat.digits 10 n).reverse.map decChar

/-- Decimal rendering of an integer, as Python `str` / `"%d"`. -/
def intToDecChars (v : ℤ) : List Char :=
  if v < 0 then '-' :: natToDecChars v.natAbs else natToDecChars v.toNat

/-- `str(int)` as a `String`. -/
def intToDecStr (v : ℤ) : String := ⟨intToDecChars v⟩

/-! ### Round-trip lemmas for decimal text -/

theorem decDigitsVal_append_singleton (xs : List Char) (c : Char) :
    decDigitsVal (xs ++ [c]) = 10 * decDigitsVal xs + (c.toNat - 48) := by
  simp [decDigitsVal, List.foldl_append]

theorem decChar_toNat (d : ℕ) (hd : d < 10) : (decChar d).toNat = d + 48 := by
  interval_cases d <;> rfl

theorem isDig_decChar (d : ℕ) (hd : d < 10) : isDig (decChar d) = true := by
  interval_cases d <;> rfl

theorem decDigitsVal_map_decChar (L : List ℕ) (hL : ∀ d ∈ L, d < 10) :
    decDigitsVal (L.reverse.map decChar) = Nat.ofDigits 10 L := by
  induction L with
  | nil => rfl
  | cons d ds ih =>
    have hds : ∀ x ∈ ds, x < 10 := fun x hx => hL x (List.mem_cons_of_mem _ hx)
    have hd : d < 10 := hL d (List.mem_cons_self _ _)
    rw [List.reverse_cons, List.map_append]
    simp only [List.map_cons, List.map_nil]
    rw [decDigitsVal_append_singleton, ih hds, decChar_toNat d hd,
      Nat.ofDigits_cons]
    omega

theorem natToDecChars_ne_nil (n : ℕ) : natToDecChars n ≠ [] := by
  unfold natToDecChars
  split
  · simp
  · next h =>
    have : Nat.digits 10 n ≠ [] := Nat.digits_ne_nil_iff_ne_zero.2 h
    simp [this]

theorem natToDecChars_all_dig (n : ℕ) : (natToDecChars n).all isDig = true := by
  unfold natToDecChars
  split
  · rfl
  · rw [List.all_eq_true]
    intro c hc
    rw [List.mem_map] at hc
    obtain ⟨d, hd, rfl⟩ := hc
    rw [List.mem_reverse] at hd
    exact isDig_decChar d (Nat.digits_lt_base (by norm_num) hd)

theorem decDigitsVal_natToDecChars (n : ℕ) : decDigitsVal (natToDecChars n) = n := by
  unfold natToDecChars
  split
  · next h => subst h; rfl
  · next h =>
    rw [decDigitsVal_map_decChar _ (fun d hd => Nat.digits_lt_base (by norm_num) hd)]
    exact Nat.ofDigits_digits 10 n

theorem isDig_not_ws (c : Char) (h : isDig c = true) : isPyWs c = false := by
  simp only [isDig, Bool.and_eq_true, decide_eq_true_eq] at h
  simp only [isPyWs, Bool.or_eq_false_iff, decide_eq_false_iff_not]
  omega

theorem mem_of_getLast?_some {α : Type} {l : List α} {c : α}
    (h : l.getLast? = some c) : c ∈ l := by
  cases l with
  | nil => simp at h
  | cons a t =>
    rw [List.getLast?_eq_getLast_of_ne_nil (l := a :: t) (by simp)] at h
    obtain rfl := Option.some.inj h
    exact List.getLast_mem _

theorem dropWhile_eq_self_of_head (p : Char → Bool) (l : List Char)
    (h : ∀ c, l.head? = some c → p c = false) : l.dropWhile p = l := by
  cases l with
  | nil => rfl
  | cons a l => simp [List.dropWhile, h a rfl]

theorem trimWs_eq_self (l : List Char)
    (h1 : ∀ c, l.head? = some c → isPyWs c = false)
    (h2 : ∀ c, l.getLast? = some c → isPyWs c = false) : trimWs l = l := by
  unfold trimWs
  rw [dropWhile_eq_self_of_head _ _ h1]
  rw [dropWhile_eq_self_of_head _ _ (by simpa using h2)]
  exact List.reverse_reverse l

theorem trimWs_all_dig (l : List Char) (hl : l.all isDig = true) : trimWs l = l := by
  rw [List.all_eq_true] at hl
  refine trimWs_eq_self l ?_ ?_
  · intro c hc
    exact isDig_not_ws c (hl c (by cases l <;> simp_all))
  · intro c hc
    exact isDig_not_ws c (hl c (mem_of_getLast?_some hc))

theorem isDig_ne_minus (c : Char) (h : isDig c = true) : c ≠ '-' := by
  rintro rfl; exact absurd h (by decide)

theorem isDig_ne_plus (c : Char) (h : isDig c = true) : c ≠ '+' := by
  rintro rfl; exact absurd h (by decide)

theorem pyIntSignDigits_all_dig (l : List Char) (hne : l ≠ [])
    (hl : l.all isDig = true) : pyIntSignDigits l = some ((decDigitsVal l : ℤ)) := by
  cases l with
  | nil => exact absurd rfl hne
  | cons c rest =>
    have hc : isDig c = true := by
      rw [List.all_eq_true] at hl
      exact hl c (List.mem_cons_self _ _)
    show pyIntSignDigits (c :: rest) = _
    simp only [pyIntSignDigits]
    rw [if_neg (by exact fun h => isDig_ne_minus c hc h)]
    rw [if_neg (by exact fun h => isDig_ne_plus c hc h)]
    rw [if_pos hl]

theorem pyIntParseCore_all_dig (l : List Char) (hne : l ≠ [])
    (hl : l.all isDig = true) : pyIntParseCore l = some ((decDigitsVal l : ℤ)) := by
  unfold pyIntParseCore
  rw [trimWs_all_dig l hl]
  exact pyIntSignDigits_all_dig l hne hl

theorem pyIntParseCore_natToDecChars (n : ℕ) :
    pyIntParseCore (natToDecChars n) = some ((n : ℤ)) := by
  rw [pyIntParseCore_all_dig _ (natToDecChars_ne_nil n) (natToDecChars_all_dig n),
    decDigitsVal_natToDecChars]

/-- `int(str(v)) == v`: Python's decimal text round-trips. -/
theorem pyIntParseCore_intToDecChars (v : ℤ) :
    pyIntParseCore (intToDecChars v) = some v := by
  unfold intToDecChars
  split
  · next hv =>
    have hne := natToDecChars_ne_nil v.natAbs
    have hdig := natToDecChars_all_dig v.natAbs
    unfold pyIntParseCore
    have htrim : trimWs ('-' :: natToDecChars v.natAbs) = '-' :: natToDecChars v.natAbs := by
      refine trimWs_eq_self _ ?_ ?_
      · intro c hc
        simp only [List.head?_cons, Option.some.injEq] at hc
        subst hc; rfl
      · intro c hc
        rw [show '-' :: natToDecChars v.natAbs = ['-'] ++ natToDecChars v.natAbs from rfl,
          List.getLast?_append_of_ne_nil _ hne] at hc
        rw [List.all_eq_true] at hdig
        exact isDig_not_ws c (hdig c (mem_of_getLast?_some hc))
    rw [htrim]
    show pyIntSignDigits ('-' :: natToDecChars v.natAbs) = _
    simp only [pyIntSignDigits]
    rw [if_pos trivial, if_pos ⟨hne, hdig⟩, decDigitsVal_natToDecChars]
    congr 1
    omega
  · next hv =>
    rw [pyIntParseCore_natToDecChars]
    congr 1
    omega

/-! ## RDFBytes and RDFString

`RDFBytes`: the payload is the byte string itself; `SerializeToString`
returns it and `ParseFromString` stores it (after a type assertion that
is enforced here by the type of the embedding).

`RDFString`: the wire form is the UTF-8 encoding of the unicode
payload.  The codec is the runtime's bijection between text and its
encoding; wire bytes are represented at codec granularity by their
decoded content, so encode and decode are identities of the model. -/

def RDFBytes.SerializeToString (v : String) : String := v

def RDFBytes.ParseFromString (s : String) : String := s

def RDFString.SerializeToString (v : String) : String := v

def RDFString.ParseFromString (s : String) : String := s

/-! ## RDFInteger (and the kinds that inherit its wire form)

`RDFInteger.SerializeToString` is `str(self._value)`.
`RDFInteger.ParseFromString` sets `self._value = 0`, and for a truthy
(non-empty) string runs `int(string)` under `except TypeError`; since
`int()` raises `ValueError` on a malformed byte string and never
`TypeError`, the failure escapes as a plain `ValueError` — the
`DecodeError` re-raise is unreachable for string input. -/

def RDFInteger.SerializeToString (v : ℤ) : String := intToDecStr v

def RDFInteger.ParseFromString (s : String) : Except PyExc ℤ :=
  if s.data = [] then .ok 0
  else
    match pyIntParseCore s.data with
    | some v => .ok v
    | none => .error .valueError

/-- `RDFBool` inherits `RDFInteger`'s wire form. -/
def RDFBool.SerializeToString (v : ℤ) : String := RDFInteger.SerializeToString v

def RDFBool.ParseFromString (s : String) : Except PyExc ℤ := RDFInteger.ParseFromString s

/-- `RDFDatetime` inherits `RDFInteger`'s wire form. -/
def RDFDatetime.SerializeToString (v : ℤ) : String := RDFInteger.SerializeToString v

def RDFDatetime.ParseFromString (s : String) : Except PyExc ℤ := RDFInteger.ParseFromString s

/-- `RDFDatetimeSeconds` inherits `RDFInteger`'s wire form. -/
def RDFDatetimeSeconds.SerializeToString (v : ℤ) : String := RDFInteger.SerializeToString v

def RDFDatetimeSeconds.ParseFromString (s : String) : Except PyExc ℤ :=
  RDFInteger.ParseFromString s

theorem intToDecChars_ne_nil (v : ℤ) : intToDecChars v ≠ [] := by
  unfold intToDecChars
  split
  · simp
  · exact natToDecChars_ne_nil _

theorem integer_roundtrip (v : ℤ) :
    RDFInteger.ParseFromString (RDFInteger.SerializeToString v) = .ok v := by
  unfold RDFInteger.ParseFromString RDFInteger.SerializeToString intToDecStr
  rw [if_neg (by exact intToDecChars_ne_nil v)]
  rw [show (String.mk (intToDecChars v)).data = intToDecChars v from rfl]
  rw [pyIntParseCore_intToDecChars]

/-! ## Duration

Payload: a signed integer count of seconds.  `SerializeToString` is
`str(self)`, where `__str__` scans the ordered `DIVIDERS` table and
renders against the first divider that divides the payload evenly (the
scan yields `none` if it falls through, modelling the implicit `None`
return).  `ParseFromString` delegates to `ParseFromHumanReadable`. -/

def Duration.DIVIDERS : List (Char × ℤ) :=
  [('w', 604800), ('d', 86400), ('h', 3600), ('m', 60), ('s', 1)]

/-- `self.DIVIDERS[timestring[-1]]`; `none` models the `KeyError`. -/
def durLookup (c : Char) : Option ℤ := Duration.DIVIDERS.lookup c

/-- The `__str__` scan over the ordered divider table. -/
def durationStrScanCore (v : ℤ) : List (Char × ℤ) → Option (List Char)
  | [] => none
  | (label, d) :: rest =>
    if v % d = 0 then some (intToDecChars (v.fdiv d) ++ [label])
    else durationStrScanCore v rest

def Duration.SerializeToString (v : ℤ) : String :=
  ⟨(durationStrScanCore v Duration.DIVIDERS).getD []⟩

/-- `Duration.ParseFromHumanReadable` on the current value `v`: empty
text returns with the value unchanged; a trailing digit means no
multiplicator; otherwise the trailing character is looked up in
`DIVIDERS` (`KeyError` becomes a bare `RuntimeError`) and stripped;
finally `int(...)` failure is wrapped in `InitializeError`. -/
def Duration.ParseFromHumanReadableCore (v : ℤ) (l : List Char) : Except PyExc ℤ :=
  if l = [] then .ok v
  else
    if isDig (l.getLastD ' ') then
      match pyIntParseCore l with
      | some n => .ok n
      | none => .error .initializeError
    else
      match durLookup (l.getLastD ' ') with
      | none => .error .runtimeError
      | some m =>
        match pyIntParseCore l.dropLast with
        | some n => .ok (n * m)
        | none => .error .initializeError

def Duration.ParseFromHumanReadable (v : ℤ) (s : String) : Except PyExc ℤ :=
  Duration.ParseFromHumanReadableCore v s.data

/-- `ParseFromString` on a fresh instance (`FromSerializedString` path):
the fresh value is `0`. -/
def Duration.ParseFromString (s : String) : Except PyExc ℤ :=
  Duration.ParseFromHumanReadableCore 0 s.data

theorem duration_parse_render (q d : ℤ) (label : Char)
    (hnd : isDig label = false) (hlk : durLookup label = some d) :
    Duration.ParseFromHumanReadableCore 0 (intToDecChars q ++ [label]) = .ok (q * d) := by
  unfold Duration.ParseFromHumanReadableCore
  rw [if_neg (by simp)]
  have hlast : (intToDecChars q ++ [label]).getLastD ' ' = label := by
    rw [List.getLastD_eq_getLast?, List.getLast?_concat]
    rfl
  rw [hlast, hnd]
  simp only [Bool.false_eq_true, if_false, hlk, List.dropLast_concat,
    pyIntParseCore_intToDecChars]

/-- The ordered divider scan always succeeds: it renders against the
first (hence largest) divider of the table that divides the payload,
and the final divider `1` divides every integer. -/
theorem durationScan_spec (v : ℤ) :
    ∃ label d, (label, d) ∈ Duration.DIVIDERS ∧ durLookup label = some d ∧
      isDig label = false ∧ 0 < d ∧ d ∣ v ∧
      durationStrScanCore v Duration.DIVIDERS = some (intToDecChars (v.fdiv d) ++ [label]) ∧
      (∀ l2 d2, (l2, d2) ∈ Duration.DIVIDERS → d2 ∣ v → d2 ≤ d) := by
  by_cases h1 : (604800 : ℤ) ∣ v
  · refine ⟨'w', 604800, by decide, rfl, rfl, by norm_num, h1, ?_, ?_⟩
    · simp only [Duration.DIVIDERS, durationStrScanCore]
      rw [if_pos (Int.emod_eq_zero_of_dvd h1)]
    · intro l2 d2 hmem _
      simp only [Duration.DIVIDERS, List.mem_cons, List.not_mem_nil, or_false,
        Prod.mk.injEq] at hmem
      rcases hmem with ⟨_, rfl⟩ | ⟨_, rfl⟩ | ⟨_, rfl⟩ | ⟨_, rfl⟩ | ⟨_, rfl⟩ <;> norm_num
  · by_cases h2 : (86400 : ℤ) ∣ v
    · refine ⟨'d', 86400, by decide, rfl, rfl, by norm_num, h2, ?_, ?_⟩
      · simp only [Duration.DIVIDERS, durationStrScanCore]
        rw [if_neg (fun h => h1 (Int.dvd_of_emod_eq_zero h)),
          if_pos (Int.emod_eq_zero_of_dvd h2)]
      · intro l2 d2 hmem hdvd
        simp only [Duration.DIVIDERS, List.mem_cons, List.not_mem_nil, or_false,
          Prod.mk.injEq] at hmem
        rcases hmem with ⟨_, rfl⟩ | ⟨_, rfl⟩ | ⟨_, rfl⟩ | ⟨_, rfl⟩ | ⟨_, rfl⟩ <;>
          first | exact absurd hdvd h1 | norm_num
    · by_cases h3 : (3600 : ℤ) ∣ v
      · refine ⟨'h', 3600, by decide, rfl, rfl, by norm_num, h3, ?_, ?_⟩
        · simp only [Duration.DIVIDERS, durationStrScanCore]
          rw [if_neg (fun h => h1 (Int.dvd_of_emod_eq_zero h)),
            if_neg (fun h => h2 (Int.dvd_of_emod_eq_zero h)),
            if_pos (Int.emod_eq_zero_of_dvd h3)]
        · intro l2 d2 hmem hdvd
          simp only [Duration.DIVIDERS, List.mem_cons, List.not_mem_nil, or_false,
            Prod.mk.injEq] at hmem
          rcases hmem with ⟨_, rfl⟩ | ⟨_, rfl⟩ | ⟨_, rfl⟩ | ⟨_, rfl⟩ | ⟨_, rfl⟩ <;>
            first | exact absurd hdvd h1 | exact absurd hdvd h2 | norm_num
      · by_cases h4 : (60 : ℤ) ∣ v
        · refine ⟨'m', 60, by decide, rfl, rfl, by norm_num, h4, ?_, ?_⟩
          · simp only [Duration.DIVIDERS, durationStrScanCore]
            rw [if_neg (fun h => h1 (Int.dvd_of_emod_eq_zero h)),
              if_neg (fun h => h2 (Int.dvd_of_emod_eq_zero h)),
              if_neg (fun h => h3 (Int.dvd_of_emod_eq_zero h)),
              if_pos (Int.emod_eq_zero_of_dvd h4)]
          · intro l2 d2 hmem hdvd
            simp only [Duration.DIVIDERS, List.mem_cons, List.not_mem_nil, or_false,
              Prod.mk.injEq] at hmem
            rcases hmem with ⟨_, rfl⟩ | ⟨_, rfl⟩ | ⟨_, rfl⟩ | ⟨_, rfl⟩ | ⟨_, rfl⟩ <;>
              first | exact absurd hdvd h1 | exact absurd hdvd h2 |
                exact absurd hdvd h3 | norm_num
        · refine ⟨'s', 1, by decide, rfl, rfl, by norm_num, one_dvd v, ?_, ?_⟩
          · simp only [Duration.DIVIDERS, durationStrScanCore]
            rw [if_neg (fun h => h1 (Int.dvd_of_emod_eq_zero h)),
              if_neg (fun h => h2 (Int.dvd_of_emod_eq_zero h)),
              if_neg (fun h => h3 (Int.dvd_of_emod_eq_zero h)),
              if_neg (fun h => h4 (Int.dvd_of_emod_eq_zero h)),
              if_pos (Int.emod_eq_zero_of_dvd (one_dvd v))]
          · intro l2 d2 hmem hdvd
            simp only [Duration.DIVIDERS, List.mem_cons, List.not_mem_nil, or_false,
              Prod.mk.injEq] at hmem
            rcases hmem with ⟨_, rfl⟩ | ⟨_, rfl⟩ | ⟨_, rfl⟩ | ⟨_, rfl⟩ | ⟨_, rfl⟩ <;>
              first | exact absurd hdvd h1 | exact absurd hdvd h2 |
                exact absurd hdvd h3 | exact absurd hdvd h4 | norm_num

theorem duration_roundtrip (v : ℤ) :
    Duration.ParseFromString (Duration.SerializeToString v) = .ok v := by
  obtain ⟨label, d, _, hlk, hnd, hpos, hdvd, hscan, _⟩ := durationScan_spec v
  unfold Duration.SerializeToString Duration.ParseFromString
  rw [hscan]
  rw [show ((String.mk ((some (intToDecChars (v.fdiv d) ++ [label])).getD [])).data) =
    intToDecChars (v.fdiv d) ++ [label] from rfl]
  rw [duration_parse_render (v.fdiv d) d label hnd hlk]
  obtain ⟨k, rfl⟩ := hdvd
  rw [Int.mul_fdiv_cancel_left k (by omega)]
  congr 1
  ring

/-! ## ByteSize

Payload: a non-negative integer count of bytes (modelled over `ℤ` as the
source never checks sign).  The wire form is inherited from
`RDFInteger`; `ParseFromHumanReadable` applies the regular expression
`^([0-9.]+)([kmgi]*)b?$` to the stripped, lower-cased input. -/

/-- Split a character list on a separator, Python `str.split(sep)`. -/
def splitOnChar (sep : Char) : List Char → List (List Char)
  | [] => [[]]
  | c :: rest =>
    if c = sep then [] :: splitOnChar sep rest
    else
      match splitOnChar sep rest with
      | [] => [[c]]
      | s :: ss => (c :: s) :: ss

/-- Character class `[0-9.]` of the coefficient group. -/
def sizeNumChar (c : Char) : Bool := isDig c || c = '.'

/-- Character class `[kmgi]` of the multiplier group. -/
def sizeMultChar (c : Char) : Bool := c = 'k' || c = 'm' || c = 'g' || c = 'i'

/-- The `ByteSize.DIVIDERS` table; `none` models a `.get` miss. -/
def ByteSize.DIVIDERS (m : List Char) : Option ℤ :=
  if m = [] then some 1
  else if m = ['k'] then some 1000
  else if m = ['m'] then some (1000 ^ 2)
  else if m = ['g'] then some (1000 ^ 3)
  else if m = ['k', 'i'] then some 1024
  else if m = ['m', 'i'] then some (1024 ^ 2)
  else if m = ['g', 'i'] then some (1024 ^ 3)
  else none

/-- `REGEX.match`: the three parts are drawn from disjoint character
classes, so the greedy match is the maximal `[0-9.]` run, then the
maximal `[kmgi]` run, then an optional `b`, then end of input.  Returns
the two capture groups. -/
def byteSizeMatch (l : List Char) : Option (List Char × List Char) :=
  if l.takeWhile sizeNumChar = [] then none
  else
    if (l.dropWhile sizeNumChar).dropWhile sizeMultChar = [] ∨
        (l.dropWhile sizeNumChar).dropWhile sizeMultChar = ['b'] then
      some (l.takeWhile sizeNumChar, (l.dropWhile sizeNumChar).takeWhile sizeMultChar)
    else none

/-- The coefficient group (`match.group(1)`, drawn from `[0-9.]`):
`float(value)` when a dot is present — valid iff there is exactly one
dot and at least one digit — else `int(value)`.  The coefficient is the
exact rational `num / den` (`float` arithmetic modelled exactly);
`none` models the bare `ValueError` a bad float raises. -/
def coeffParse (l : List Char) : Option (ℤ × ℤ) :=
  if l.contains '.' then
    match splitOnChar '.' l with
    | [ip, fp] =>
      if (ip ≠ [] ∨ fp ≠ []) ∧ ip.all isDig ∧ fp.all isDig then
        some ((decDigitsVal ip : ℤ) * 10 ^ fp.length + (decDigitsVal fp : ℤ),
          (10 : ℤ) ^ fp.length)
      else none
    | _ => none
  else some ((decDigitsVal l : ℤ), 1)

/-- `ByteSize.ParseFromHumanReadable` on the current value `v`.  An
untruthy (empty) input returns with the value unchanged.  `int(value *
multiplier)` truncates the product `(num / den) * m`; every factor is
non-negative, so truncation is the floor, `(num * m).fdiv den`. -/
def ByteSize.ParseFromHumanReadableCore (v : ℤ) (l : List Char) : Except PyExc ℤ :=
  if l = [] then .ok v
  else
    match byteSizeMatch ((trimWs l).map Char.toLower) with
    | none => .error .decodeError
    | some (coeff, mult) =>
      match ByteSize.DIVIDERS mult with
      | none => .error .decodeError
      | some m =>
        match coeffParse coeff with
        | none => .error .valueError
        | some nd => .ok ((nd.1 * m).fdiv nd.2)

def ByteSize.ParseFromHumanReadable (v : ℤ) (s : String) : Except PyExc ℤ :=
  ByteSize.ParseFromHumanReadableCore v s.data

/-- `ByteSize` inherits `RDFInteger`'s wire form. -/
def ByteSize.SerializeToString (v : ℤ) : String := RDFInteger.SerializeToString v

def ByteSize.ParseFromString (s : String) : Except PyExc ℤ := RDFInteger.ParseFromString s

/-! ## RDFDatetime arithmetic

Payload: an integer count of elapsed units since the epoch; the unit is
fixed by the class `converter` (`MICROSECONDS` for `RDFDatetime`, `1`
for `RDFDatetimeSeconds`), threaded here as the `conv` argument.  The
right operand of the overloaded operators is dispatched by `isinstance`
checks; `none` models the returned `NotImplemented`. -/

def MICROSECONDS : ℤ := 1000000

/-- The right operand of `__add__` / `__sub__` / `__mul__`: a raw
number (`int`/`long`/`float`, modelled integral), a `Duration` (payload
in seconds), another `RDFDatetime` (raw payload), or an unrelated
object. -/
inductive NumOperand where
  | num (n : ℤ)
  | dur (d : ℤ)
  | dtv (w : ℤ)
  | other

/-- `__sub__` returns an instant for a numeric operand and a `Duration`
for a datetime operand. -/
inductive DtSubResult where
  | dtv (v : ℤ)
  | durv (d : ℤ)
deriving DecidableEq, Repr

/-- `AsSecondsSinceEpoch`: `self._value // self.converter`. -/
def RDFDatetime.AsSecondsSinceEpoch (conv v : ℤ) : ℤ := v.fdiv conv

/-- `__add__`: a numeric or `Duration` operand is taken as seconds and
rescaled by the converter. -/
def RDFDatetime.add (conv v : ℤ) : NumOperand → Option ℤ
  | .num n => some (v + n * conv)
  | .dur d => some (v + d * conv)
  | _ => none

/-- `__sub__`: numeric/`Duration` operands are seconds; a datetime
operand yields `Duration(self.AsSecondsSinceEpoch() -
other.AsSecondsSinceEpoch())`. -/
def RDFDatetime.sub (conv v : ℤ) : NumOperand → Option DtSubResult
  | .num n => some (.dtv (v - n * conv))
  | .dur d => some (.dtv (v - d * conv))
  | .dtv w => some (.durv (RDFDatetime.AsSecondsSinceEpoch conv v -
      RDFDatetime.AsSecondsSinceEpoch conv w))
  | .other => none

/-- `__mul__`: `self.__class__(self._value * other)` — the raw payload
is scaled directly, with no converter rescaling. -/
def RDFDatetime.mul (v : ℤ) : NumOperand → Option ℤ
  | .num n => some (v * n)
  | .dur d => some (v * d)
  | _ => none

/-! ## RDFDatetime.Lerp -/

/-- Python 3 `round`: nearest integer, ties to the even one. -/
def pythonRound (q : ℚ) : ℤ :=
  if q - ⌊q⌋ < 1 / 2 then ⌊q⌋
  else if 1 / 2 < q - ⌊q⌋ then ⌊q⌋ + 1
  else if ⌊q⌋ % 2 = 0 then ⌊q⌋ else ⌊q⌋ + 1

/-- An argument of `Lerp`: an `RDFDatetime` instance (the subclass
`RDFDatetimeSeconds` included) or anything else. -/
inductive LerpOperand where
  | dt (v : ℤ)
  | other

/-- `RDFDatetime.Lerp`: the `isinstance` check on both endpoints comes
first (`TypeError`), then the progress-range check (`ValueError`), then
`RDFDatetime(round((1 - t) * start._value + t * end._value))`.  The
real-number arithmetic on `t` is modelled exactly over `ℚ`. -/
def RDFDatetime.Lerp (t : ℚ) : LerpOperand → LerpOperand → Except PyExc ℤ
  | .dt sv, .dt ev =>
    if 0 ≤ t ∧ t ≤ 1 then .ok (pythonRound ((1 - t) * sv + t * ev))
    else .error .valueError
  | _, _ => .error .typeError

/-! ## RDFURN

Payload: the normalized path string `_string_urn` (no `aff4:` scheme
stored).  `ParseFromString` strips a leading `aff4:` (the first five
characters) when the input starts with `aff4:/`, then normalizes.
`SerializeToString` is `str(self)`, i.e. `"aff4:" + path`. -/

/-- Join path segments with `/` separators (`sep.join`). -/
def joinSegs : List (List Char) → List Char
  | [] => []
  | [s] => s
  | s :: rest => s ++ '/' :: joinSegs rest

/-- A segment kept by normalization: non-empty and neither `.` nor `..`. -/
def goodSeg (seg : List Char) : Prop := seg ≠ [] ∧ seg ≠ ['.'] ∧ seg ≠ ['.', '.']

instance (seg : List Char) : Decidable (goodSeg seg) := by
  unfold goodSeg; infer_instance

/-- One step of the normalization scan. -/
def normStep (acc : List (List Char)) (seg : List Char) : List (List Char) :=
  if seg = [] ∨ seg = ['.'] then acc
  else if seg = ['.', '.'] then acc.dropLast
  else acc ++ [seg]

/-- Drop empty and `.` segments and let `..` pop the previous segment. -/
def normSegs (segs : List (List Char)) : List (List Char) :=
  segs.foldl normStep []

/-- Modelled from the spec: `utils.NormalizePath` lives in
`grr_response_core/lib/utils.py`, which is not under `src/`.  Per the
spec, the payload is "always a normalized absolute path string with no
empty path segments, no `.`/`..` collapsing ambiguity", and
"normalizing an already-normalized path is a no-op": split on `/`,
drop empty and `.` segments, let `..` pop, and emit an absolute path. -/
def NormalizePathCore (l : List Char) : List Char :=
  '/' :: joinSegs (normSegs (splitOnChar '/' l))

def RDFURN.ParseFromStringCore (l : List Char) : List Char :=
  if l.take 6 = "aff4:/".data then NormalizePathCore (l.drop 5)
  else NormalizePathCore l

def RDFURN.ParseFromString (s : String) : String := ⟨RDFURN.ParseFromStringCore s.data⟩

def RDFURN.SerializeToString (p : String) : String := "aff4:" ++ p

/-- `posixpath.basename`: everything after the last `/`. -/
def basenameCore (p : List Char) : List Char := (splitOnChar '/' p).getLastD []

/-! ### Normalization lemmas -/

theorem splitOnChar_ne_nil (sep : Char) (l : List Char) : splitOnChar sep l ≠ [] := by
  induction l with
  | nil => simp [splitOnChar]
  | cons c rest ih =>
    unfold splitOnChar
    split
    · simp
    · cases h : splitOnChar sep rest <;> simp

theorem not_mem_of_mem_splitOnChar (sep : Char) (l : List Char) :
    ∀ s ∈ splitOnChar sep l, sep ∉ s := by
  induction l with
  | nil =>
    intro s hs
    simp [splitOnChar] at hs
    simp [hs]
  | cons c rest ih =>
    intro s hs
    unfold splitOnChar at hs
    split at hs
    · rcases List.mem_cons.1 hs with rfl | hmem
      · simp
      · exact ih s hmem
    · next hc =>
      cases h : splitOnChar sep rest with
      | nil => exact absurd h (splitOnChar_ne_nil sep rest)
      | cons s0 ss =>
        rw [h] at hs
        rcases List.mem_cons.1 hs with rfl | hmem
        · have hs0 : sep ∉ s0 := ih s0 (h ▸ List.mem_cons_self _ _)
          simp only [List.mem_cons]
          rintro (rfl | hm)
          · exact hc rfl
          · exact hs0 hm
        · exact ih s (h ▸ List.mem_cons_of_mem _ hmem)

theorem splitOnChar_no_sep (sep : Char) (s : List Char) (h : sep ∉ s) :
    splitOnChar sep s = [s] := by
  induction s with
  | nil => rfl
  | cons c rest ih =>
    have hc : c ≠ sep := fun hcc => h (hcc ▸ List.mem_cons_self _ _)
    have hrest : sep ∉ rest := fun hm => h (List.mem_cons_of_mem _ hm)
    unfold splitOnChar
    rw [if_neg hc, ih hrest]

theorem splitOnChar_append_sep (sep : Char) (s t : List Char) (h : sep ∉ s) :
    splitOnChar sep (s ++ sep :: t) = s :: splitOnChar sep t := by
  induction s with
  | nil => simp [splitOnChar]
  | cons c rest ih =>
    have hc : c ≠ sep := fun hcc => h (hcc ▸ List.mem_cons_self _ _)
    have hrest : sep ∉ rest := fun hm => h (List.mem_cons_of_mem _ hm)
    rw [List.cons_append]
    simp only [splitOnChar, if_neg hc]
    rw [ih hrest]

theorem splitOnChar_joinSegs (segs : List (List Char)) (hne : segs ≠ [])
    (hns : ∀ s ∈ segs, '/' ∉ s) : splitOnChar '/' (joinSegs segs) = segs := by
  induction segs with
  | nil => exact absurd rfl hne
  | cons s rest ih =>
    cases rest with
    | nil =>
      show splitOnChar '/' (joinSegs [s]) = [s]
      exact splitOnChar_no_sep '/' s (hns s (List.mem_cons_self _ _))
    | cons s2 ss =>
      show splitOnChar '/' (s ++ '/' :: joinSegs (s2 :: ss)) = _
      rw [splitOnChar_append_sep '/' s _ (hns s (List.mem_cons_self _ _))]
      rw [ih (by simp) (fun x hx => hns x (List.mem_cons_of_mem _ hx))]

theorem foldl_normStep_all_good (segs : List (List Char))
    (h : ∀ s ∈ segs, goodSeg s) (acc : List (List Char)) :
    List.foldl normStep acc segs = acc ++ segs := by
  induction segs generalizing acc with
  | nil => simp
  | cons s rest ih =>
    have hs : goodSeg s := h s (List.mem_cons_self _ _)
    obtain ⟨h1, h2, h3⟩ := hs
    rw [List.foldl_cons]
    rw [show normStep acc s = acc ++ [s] by
      unfold normStep
      rw [if_neg (by tauto), if_neg h3]]
    rw [ih (fun x hx => h x (List.mem_cons_of_mem _ hx))]
    simp

theorem mem_foldl_normStep (segs : List (List Char)) :
    ∀ acc s, s ∈ List.foldl normStep acc segs → s ∈ acc ∨ s ∈ segs := by
  induction segs with
  | nil => intro acc s hs; simp_all
  | cons seg rest ih =>
    intro acc s hs
    rw [List.foldl_cons] at hs
    rcases ih (normStep acc seg) s hs with hacc | hrest
    · unfold normStep at hacc
      split at hacc
      · exact Or.inl hacc
      · split at hacc
        · exact Or.inl (List.dropLast_subset acc hacc)
        · rcases List.mem_append.1 hacc with h | h
          · exact Or.inl h
          · simp only [List.mem_singleton] at h
            exact Or.inr (h ▸ List.mem_cons_self _ _)
    · exact Or.inr (List.mem_cons_of_mem _ hrest)

theorem good_mem_foldl_normStep (segs : List (List Char)) :
    ∀ acc, (∀ s ∈ acc, goodSeg s) → ∀ s ∈ List.foldl normStep acc segs, goodSeg s := by
  induction segs with
  | nil => intro acc hacc s hs; exact hacc s (by simpa using hs)
  | cons seg rest ih =>
    intro acc hacc s hs
    rw [List.foldl_cons] at hs
    refine ih (normStep acc seg) ?_ s hs
    intro x hx
    unfold normStep at hx
    split at hx
    · exact hacc x hx
    · next hns =>
      split at hx
      · exact hacc x (List.dropLast_subset acc hx)
      · next hdd =>
        rcases List.mem_append.1 hx with h | h
        · exact hacc x h
        · simp only [List.mem_singleton] at h
          subst h
          push_neg at hns
          exact ⟨hns.1, hns.2, hdd⟩

theorem normSegs_good (l : List Char) : ∀ s ∈ normSegs (splitOnChar '/' l), goodSeg s :=
  good_mem_foldl_normStep _ [] (by simp)

theorem normSegs_no_sep (l : List Char) : ∀ s ∈ normSegs (splitOnChar '/' l), '/' ∉ s := by
  intro s hs
  rcases mem_foldl_normStep _ [] s hs with h | h
  · simp at h
  · exact not_mem_of_mem_splitOnChar '/' l s h

theorem normSegs_cons_nil (segs : List (List Char)) :
    normSegs ([] :: segs) = normSegs segs := by
  unfold normSegs
  rw [List.foldl_cons]
  rfl

/-- Normalizing an already-normalized path is a no-op. -/
theorem normalizePath_idem (l : List Char) :
    NormalizePathCore (NormalizePathCore l) = NormalizePathCore l := by
  unfold NormalizePathCore
  rw [show splitOnChar '/' ('/' :: joinSegs (normSegs (splitOnChar '/' l))) =
      [] :: splitOnChar '/' (joinSegs (normSegs (splitOnChar '/' l))) by
    simp [splitOnChar]]
  rw [normSegs_cons_nil]
  cases hN : normSegs (splitOnChar '/' l) with
  | nil => rfl
  | cons s ss =>
    rw [splitOnChar_joinSegs (s :: ss) (by simp) (hN ▸ normSegs_no_sep l)]
    unfold normSegs
    rw [foldl_normStep_all_good (s :: ss) (hN ▸ normSegs_good l) []]
    rfl

/-- Parsing the serialization of a normalized payload returns it:
`"aff4:" + path` starts with `aff4:/`, the five stripped characters
recover `path`, and normalization is idempotent. -/
theorem urn_parse_serialize_core (x : List Char) :
    RDFURN.ParseFromStringCore ("aff4:".data ++ NormalizePathCore x) = NormalizePathCore x := by
  unfold RDFURN.ParseFromStringCore
  rw [show NormalizePathCore x = '/' :: joinSegs (normSegs (splitOnChar '/' x)) from rfl]
  rw [show ("aff4:".data ++ '/' :: joinSegs (normSegs (splitOnChar '/' x))).take 6 =
      "aff4:/".data by rfl]
  rw [if_pos rfl]
  rw [show ("aff4:".data ++ '/' :: joinSegs (normSegs (splitOnChar '/' x))).drop 5 =
      '/' :: joinSegs (normSegs (splitOnChar '/' x)) by rfl]
  exact normalizePath_idem x

theorem urn_roundtrip (init : String) :
    RDFURN.ParseFromString (RDFURN.SerializeToString (RDFURN.ParseFromString init)) =
      RDFURN.ParseFromString init := by
  unfold RDFURN.ParseFromString RDFURN.SerializeToString RDFURN.ParseFromStringCore
  split
  · exact congrArg String.mk (urn_parse_serialize_core (init.data.drop 5))
  · exact congrArg String.mk (urn_parse_serialize_core init.data)

/-! ## SessionID

`__init__` validates the initializer's final path segment against
`^[-0-9a-zA-Z]+:[0-9a-zA-Z]+(:[0-9a-zA-Z]+)?$` — but only when the
initializer `isinstance(initializer, RDFURN)`; a plain string
initializer skips the check entirely (the coercion that would wrap it
in an `RDFURN` is commented out in the source) and flows into
`RDFURN.ParseFromString`. -/

/-- First component class `[-0-9a-zA-Z]`. -/
def validQueueChar (c : Char) : Bool := c = '-' || c.isAlphanum

/-- Second and third component class `[0-9a-zA-Z]` (no hyphen). -/
def validFlowChar (c : Char) : Bool := c.isAlphanum

/-- `SessionID.ValidateID`: the anchored regular expression demands two
or three `:`-separated components over the classes above. -/
def SessionID.ValidateID (l : List Char) : Bool :=
  match splitOnChar ':' l with
  | [q, f] => !q.isEmpty && q.all validQueueChar && !f.isEmpty && f.all validFlowChar
  | [q, f, x] => !q.isEmpty && q.all validQueueChar && !f.isEmpty && f.all validFlowChar &&
      !x.isEmpty && x.all validFlowChar
  | _ => false

/-- An explicit `SessionID` initializer: a plain string, or an `RDFURN`
instance whose (already normalized) payload is `p`. -/
inductive URNInit where
  | str (s : String)
  | urn (p : String)

/-- `SessionID.__init__` on an explicit initializer: `RDFURN` instances
are validated (`ValueError` from `ValidateID` is re-raised as
`InitializeError`) and then copied; strings are parsed with no
validation. -/
def SessionID.FromInitializer : URNInit → Except PyExc String
  | .str s => .ok (RDFURN.ParseFromString s)
  | .urn p =>
    if SessionID.ValidateID (basenameCore p.data) then .ok p
    else .error .initializeError

/-! ## Age and Copy

`RDFValue.__init__` stores `age` as given, defaulting to
`RDFDatetime(age=0)` — an `RDFDatetime` whose payload is `0`, the
epoch — despite the adjacent comment "Default timestamp is now.".
The `age` property lazily wraps a raw stored scalar in `RDFDatetime`. -/

/-- The `_age` slot: a raw scalar or an `RDFDatetime` payload. -/
inductive AgeField where
  | raw (n : ℤ)
  | dt (v : ℤ)
deriving DecidableEq, Repr

/-- `RDFDatetime.__init__`: payload `0` unless a numeric initializer is
given. -/
def RDFDatetime.init : Option ℤ → ℤ
  | none => 0
  | some n => n

/-- `RDFValue.__init__` age handling: `if age is None: age =
RDFDatetime(age=0)`. -/
def RDFValue.initAge : Option AgeField → AgeField
  | none => .dt (RDFDatetime.init none)
  | some a => a

/-- The `age` property: a non-`RDFDatetime` stored age is upgraded via
`RDFDatetime(self._age, age=0)`; the payload read is returned. -/
def RDFValue.ageRead : AgeField → ℤ
  | .raw n => RDFDatetime.init (some n)
  | .dt v => v

/-- A value instance of an integer-payload kind together with its
stored age. -/
structure TimedValue where
  value : ℤ
  ageF : AgeField
deriving DecidableEq, Repr

/-- A value instance of a string-payload kind together with its stored
age. -/
structure StrTimedValue where
  value : String
  ageF : AgeField

/-- A `RDFURN` (or `SessionID`) instance: the normalized path payload
together with its stored age. -/
structure URNValue where
  path : String
  ageF : AgeField

/-- `RDFValue.Copy` for `Duration`: `res = self.__class__()` (fresh
default age), then `res.ParseFromString(self.SerializeToString())`. -/
def Duration.Copy (v : TimedValue) : Except PyExc TimedValue :=
  match Duration.ParseFromString (Duration.SerializeToString v.value) with
  | .ok n => .ok ⟨n, RDFValue.initAge none⟩
  | .error e => .error e

/-- `RDFValue.Copy` for `RDFInteger`. -/
def RDFInteger.Copy (v : TimedValue) : Except PyExc TimedValue :=
  match RDFInteger.ParseFromString (RDFInteger.SerializeToString v.value) with
  | .ok n => .ok ⟨n, RDFValue.initAge none⟩
  | .error e => .error e

/-- `RDFValue.Copy` for `RDFBytes`. -/
def RDFBytes.Copy (v : StrTimedValue) : StrTimedValue :=
  ⟨RDFBytes.ParseFromString (RDFBytes.SerializeToString v.value), RDFValue.initAge none⟩

/-- `RDFValue.Copy` for `RDFString`. -/
def RDFString.Copy (v : StrTimedValue) : StrTimedValue :=
  ⟨RDFString.ParseFromString (RDFString.SerializeToString v.value), RDFValue.initAge none⟩

/-- `RDFBool`, the temporal kinds and `ByteSize` run the base
`RDFValue.Copy` through their inherited `RDFInteger` wire form. -/
def RDFBool.Copy (v : TimedValue) : Except PyExc TimedValue := RDFInteger.Copy v

def RDFDatetime.Copy (v : TimedValue) : Except PyExc TimedValue := RDFInteger.Copy v

def RDFDatetimeSeconds.Copy (v : TimedValue) : Except PyExc TimedValue := RDFInteger.Copy v

def ByteSize.Copy (v : TimedValue) : Except PyExc TimedValue := RDFInteger.Copy v

/-- `RDFURN.Copy` overrides the base `Copy`: `if age is None: age =
int(time.time() * MICROSECONDS)` — the current wall-clock instant,
threaded here as `nowMicros`, stored as a raw scalar age — and
`self.__class__(self, age=age)` takes the `RDFURN`-initializer fast
path, copying the normalized payload directly with no serialization. -/
def RDFURN.Copy (nowMicros : ℤ) (v : URNValue) (age : Option ℤ) : URNValue :=
  ⟨v.path, .raw (age.getD nowMicros)⟩

/-- `SessionID` inherits `RDFURN.Copy`. -/
def SessionID.Copy (nowMicros : ℤ) (v : URNValue) (age : Option ℤ) : URNValue :=
  RDFURN.Copy nowMicros v age

/-- `SessionID` inherits `RDFURN`'s wire form (`ParseFromString` is not
overridden and performs no validation). -/
def SessionID.SerializeToString (p : String) : String := RDFURN.SerializeToString p

def SessionID.ParseFromString (s : String) : String := RDFURN.ParseFromString s

/-! # Claims -/

/-- C1: For every value kind and every constructible value `v`, parsing
the wire serialization yields an equal value:
`ParseFromString(SerializeToString(v)) == v`, for each of RDFBytes,
RDFString, RDFInteger, RDFBool, RDFDatetime, RDFDatetimeSeconds,
Duration, ByteSize, RDFURN and SessionID.  Equality of values is
payload equality; for the path kinds the constructible payloads are
exactly the parse results, so the round trip is stated over the parse
of an arbitrary initializer. -/
theorem C1_wire_roundtrip :
    (∀ b : String, RDFBytes.ParseFromString (RDFBytes.SerializeToString b) = b) ∧
    (∀ s : String, RDFString.ParseFromString (RDFString.SerializeToString s) = s) ∧
    (∀ v : ℤ, RDFInteger.ParseFromString (RDFInteger.SerializeToString v) = .ok v) ∧
    (∀ v : ℤ, RDFBool.ParseFromString (RDFBool.SerializeToString v) = .ok v) ∧
    (∀ v : ℤ, RDFDatetime.ParseFromString (RDFDatetime.SerializeToString v) = .ok v) ∧
    (∀ v : ℤ,
      RDFDatetimeSeconds.ParseFromString (RDFDatetimeSeconds.SerializeToString v) = .ok v) ∧
    (∀ v : ℤ, Duration.ParseFromString (Duration.SerializeToString v) = .ok v) ∧
    (∀ v : ℤ, ByteSize.ParseFromString (ByteSize.SerializeToString v) = .ok v) ∧
    (∀ init : String,
      RDFURN.ParseFromString (RDFURN.SerializeToString (RDFURN.ParseFromString init)) =
        RDFURN.ParseFromString init) ∧
    (∀ init : String,
      SessionID.ParseFromString (SessionID.SerializeToString (SessionID.ParseFromString init)) =
        SessionID.ParseFromString init) :=
  ⟨fun _ => rfl, fun _ => rfl, integer_roundtrip, integer_roundtrip, integer_roundtrip,
    integer_roundtrip, duration_roundtrip, integer_roundtrip, urn_roundtrip, urn_roundtrip⟩

/-- C2 counterexample: the claim says `SessionID("aff4:/flows/bad id")`
raises `InitializeError`; in the code, validation runs only for
`RDFURN` initializers, so the plain-string construction succeeds with
payload `/flows/bad id` even though that payload's final segment fails
`ValidateID`.  Moreover the claim's grammar allows a hyphen in every
component, but the code's regular expression forbids it outside the
queue component, so the RDFURN initializer `/flows/W:AB-C` is rejected
although the claim says it must succeed. -/
theorem C2_string_initializer_not_validated :
    SessionID.FromInitializer (.str "aff4:/flows/bad id") = .ok "/flows/bad id" ∧
    SessionID.ValidateID (basenameCore "/flows/bad id".data) = false ∧
    SessionID.FromInitializer (.urn "/flows/W:AB-C") = .error .initializeError := by
  decide

/-- C2 (amended): validation applies only to `RDFURN` initializers: an
`RDFURN` whose last path segment fails the grammar
`queue:flow[:suffix]` — queue over `[-0-9a-zA-Z]+`, flow and suffix
over `[0-9a-zA-Z]+` — is rejected with `InitializeError`, and one whose
last segment matches is accepted; a plain string initializer is parsed
with no validation at all (so `SessionID("aff4:/flows/W:ABCDEF")` and
`SessionID("aff4:/flows/bad id")` both succeed). -/
theorem C2_sessionid_validation :
    (∀ p : String, SessionID.ValidateID (basenameCore p.data) = true →
      SessionID.FromInitializer (.urn p) = .ok p) ∧
    (∀ p : String, SessionID.ValidateID (basenameCore p.data) = false →
      SessionID.FromInitializer (.urn p) = .error .initializeError) ∧
    (∀ s : String, SessionID.FromInitializer (.str s) = .ok (RDFURN.ParseFromString s)) ∧
    SessionID.ValidateID "W:ABCDEF".data = true ∧
    SessionID.ValidateID "bad id".data = false := by
  refine ⟨?_, ?_, fun s => rfl, by decide, by decide⟩
  · intro p h
    simp only [SessionID.FromInitializer]
    rw [if_pos h]
  · intro p h
    simp only [SessionID.FromInitializer]
    rw [if_neg (by simp [h])]

theorem C2_sessionid_validation_witness :
    SessionID.FromInitializer (.urn "/flows/W:ABCDEF") = .ok "/flows/W:ABCDEF" ∧
    SessionID.FromInitializer (.urn "/flows/bad id") = .error .initializeError :=
  ⟨C2_sessionid_validation.1 "/flows/W:ABCDEF" (by decide),
   C2_sessionid_validation.2.1 "/flows/bad id" (by decide)⟩

/-- C4: the claim (and the source comment "Default timestamp is now.")
says a value constructed without an age reads the current wall-clock
time; the code sets the default age to `RDFDatetime(age=0)`, an
`RDFDatetime` whose payload is `0` — the epoch — regardless of the
clock, and the `age` property returns that payload unchanged. -/
theorem C4_default_age_epoch :
    RDFValue.ageRead (RDFValue.initAge none) = 0 ∧
    (∀ a : ℤ, RDFValue.ageRead (RDFValue.initAge (some (.dt a))) = a) ∧
    (∀ n : ℤ, RDFValue.ageRead (RDFValue.initAge (some (.raw n))) = n) :=
  ⟨rfl, fun _ => rfl, fun _ => rfl⟩

/-- C5: instant plus/minus a number or `Duration` treats the operand as
seconds and rescales it by the class converter before adjusting the raw
payload; instant minus instant yields a `Duration` equal to the
difference of the two instants' whole seconds-since-epoch (sub-second
parts discarded by the floor divisions); and multiplication scales the
raw payload directly with no converter.  Concretely,
`Instant(20s) - Instant(5s)` is `Duration(15)` — also when sub-second
parts are present — and `Instant(x) - 5` is 5 seconds earlier. -/
theorem C5_datetime_arithmetic :
    (∀ conv v n : ℤ, RDFDatetime.add conv v (.num n) = some (v + n * conv) ∧
      RDFDatetime.add conv v (.dur n) = some (v + n * conv) ∧
      RDFDatetime.sub conv v (.num n) = some (.dtv (v - n * conv)) ∧
      RDFDatetime.sub conv v (.dur n) = some (.dtv (v - n * conv))) ∧
    (∀ conv v w : ℤ, RDFDatetime.sub conv v (.dtv w) =
      some (.durv (RDFDatetime.AsSecondsSinceEpoch conv v -
        RDFDatetime.AsSecondsSinceEpoch conv w))) ∧
    (∀ v n : ℤ, RDFDatetime.mul v (.num n) = some (v * n) ∧
      RDFDatetime.mul v (.dur n) = some (v * n)) ∧
    RDFDatetime.sub MICROSECONDS (20 * MICROSECONDS) (.dtv (5 * MICROSECONDS)) =
      some (.durv 15) ∧
    RDFDatetime.sub MICROSECONDS 20500000 (.dtv 5200000) = some (.durv 15) ∧
    (∀ x : ℤ, RDFDatetime.sub MICROSECONDS x (.num 5) = some (.dtv (x - 5 * MICROSECONDS))) :=
  ⟨fun _ _ _ => ⟨rfl, rfl, rfl, rfl⟩, fun _ _ _ => rfl, fun _ _ => ⟨rfl, rfl⟩,
    by decide, by decide, fun _ => rfl⟩

/-- C6: `Lerp(t, start, end)` raises `TypeError` unless both endpoints
are instants, `ValueError` unless `0.0 ≤ t ≤ 1.0`, and otherwise
returns the instant `round((1-t)*start + t*end)` on raw payload units;
with `start = 0` and `end = 10 * MICROSECONDS`, `t = 0.5` yields the
5-second instant and `t = 1.5` raises `ValueError`. -/
theorem C6_lerp_spec :
    (∀ (t : ℚ) (x : ℤ) (a : LerpOperand),
      RDFDatetime.Lerp t (.dt x) .other = .error .typeError ∧
      RDFDatetime.Lerp t .other a = .error .typeError) ∧
    (∀ (t : ℚ) (x y : ℤ), ¬(0 ≤ t ∧ t ≤ 1) →
      RDFDatetime.Lerp t (.dt x) (.dt y) = .error .valueError) ∧
    (∀ (t : ℚ) (x y : ℤ), 0 ≤ t → t ≤ 1 →
      RDFDatetime.Lerp t (.dt x) (.dt y) = .ok (pythonRound ((1 - t) * x + t * y))) ∧
    RDFDatetime.Lerp (1 / 2) (.dt 0) (.dt (MICROSECONDS * 10)) = .ok (5 * MICROSECONDS) ∧
    RDFDatetime.Lerp (3 / 2) (.dt 0) (.dt (MICROSECONDS * 10)) = .error .valueError := by
  refine ⟨fun t x a => ⟨rfl, by cases a <;> rfl⟩, ?_, ?_, ?_, ?_⟩
  · intro t x y h
    simp only [RDFDatetime.Lerp]
    rw [if_neg h]
  · intro t x y h0 h1
    simp only [RDFDatetime.Lerp]
    rw [if_pos ⟨h0, h1⟩]
  · simp only [RDFDatetime.Lerp]
    rw [if_pos (by norm_num)]
    unfold pythonRound MICROSECONDS
    norm_num
  · simp only [RDFDatetime.Lerp]
    rw [if_neg (by norm_num)]

theorem C6_lerp_spec_witness :
    RDFDatetime.Lerp 2 (.dt 0) (.dt 1) = .error .valueError ∧
    RDFDatetime.Lerp 0 (.dt 3) (.dt 9) = .ok (pythonRound ((1 - 0) * 3 + 0 * 9)) ∧
    RDFDatetime.Lerp 1 (.dt 0) .other = .error .typeError :=
  ⟨C6_lerp_spec.2.1 2 0 1 (by decide),
   C6_lerp_spec.2.2.1 0 3 9 (by decide) (by decide),
   (C6_lerp_spec.1 1 0 .other).1⟩

/-- C7 counterexample: the claim says a fractional coefficient is
accepted only when a multiplier suffix is present and that any
non-matching input raises `DecodeError`.  The code accepts `"1.5"` —
fractional, no multiplier — yielding `1`, and silently returns with the
value unchanged on the empty (non-matching) input. -/
theorem C7_fractional_no_multiplier :
    ByteSize.ParseFromHumanReadableCore 0 "1.5".data = .ok 1 ∧
    ByteSize.ParseFromHumanReadableCore 7 "".data = .ok 7 := by
  decide

/-- C7 (amended): human-readable `ByteSize` parsing matches
`^([0-9.]+)([kmgi]*)b?$` case-insensitively on the stripped input,
multiplies the coefficient by the SI/IEC table value (1 with no
suffix), truncates the product, accepts a fractional coefficient
regardless of whether a multiplier suffix is present, raises
`DecodeError` on non-empty non-matching input or an unrecognized
multiplier, and returns with the value unchanged on empty input.
`"1Kib"` parses to 1024, `"1kb"` to 1000, `"1.5Gi"` to 1610612736, and
`"1xb"` raises `DecodeError`. -/
theorem C7_bytesize_parse :
    (∀ (v : ℤ) (l coeff mult : List Char) (m num den : ℤ),
      l ≠ [] →
      byteSizeMatch ((trimWs l).map Char.toLower) = some (coeff, mult) →
      ByteSize.DIVIDERS mult = some m →
      coeffParse coeff = some (num, den) →
      ByteSize.ParseFromHumanReadableCore v l = .ok ((num * m).fdiv den)) ∧
    (∀ (v : ℤ) (l : List Char), l ≠ [] →
      byteSizeMatch ((trimWs l).map Char.toLower) = none →
      ByteSize.ParseFromHumanReadableCore v l = .error .decodeError) ∧
    (∀ (v : ℤ) (l coeff mult : List Char), l ≠ [] →
      byteSizeMatch ((trimWs l).map Char.toLower) = some (coeff, mult) →
      ByteSize.DIVIDERS mult = none →
      ByteSize.ParseFromHumanReadableCore v l = .error .decodeError) ∧
    (∀ v : ℤ, ByteSize.ParseFromHumanReadableCore v [] = .ok v) ∧
    ByteSize.DIVIDERS ['k'] = some 1000 ∧
    ByteSize.DIVIDERS ['m'] = some (1000 ^ 2) ∧
    ByteSize.DIVIDERS ['g'] = some (1000 ^ 3) ∧
    ByteSize.DIVIDERS ['k', 'i'] = some 1024 ∧
    ByteSize.DIVIDERS ['m', 'i'] = some (1024 ^ 2) ∧
    ByteSize.DIVIDERS ['g', 'i'] = some (1024 ^ 3) ∧
    ByteSize.DIVIDERS [] = some 1 ∧
    ByteSize.ParseFromHumanReadableCore 0 "1Kib".data = .ok 1024 ∧
    ByteSize.ParseFromHumanReadableCore 0 "1kb".data = .ok 1000 ∧
    ByteSize.ParseFromHumanReadableCore 0 "1.5Gi".data = .ok 1610612736 ∧
    ByteSize.ParseFromHumanReadableCore 0 "1xb".data = .error .decodeError := by
  refine ⟨?_, ?_, ?_, fun v => rfl, by decide, by decide, by decide, by decide, by decide,
    by decide, by decide, by decide, by decide, by decide, by decide⟩
  · intro v l coeff mult m num den hne hmatch hdiv hcoeff
    unfold ByteSize.ParseFromHumanReadableCore
    rw [if_neg hne]
    simp only [hmatch, hdiv, hcoeff]
  · intro v l hne hmatch
    unfold ByteSize.ParseFromHumanReadableCore
    rw [if_neg hne]
    simp only [hmatch]
  · intro v l coeff mult hne hmatch hdiv
    unfold ByteSize.ParseFromHumanReadableCore
    rw [if_neg hne]
    simp only [hmatch, hdiv]

theorem C7_bytesize_parse_witness :
    ByteSize.ParseFromHumanReadableCore 0 "2k".data = .ok 2000 ∧
    ByteSize.ParseFromHumanReadableCore 0 "zz".data = .error .decodeError := by
  constructor
  · have h := C7_bytesize_parse.1 0 "2k".data ['2'] ['k'] 1000 2 1
      (by decide) (by decide) (by decide) (by decide)
    rw [h]
    decide
  · exact C7_bytesize_parse.2.1 0 "zz".data (by decide) (by decide)

/-- C8: for duration text ending in a non-digit character that is not a
recognized suffix, parsing raises a bare `RuntimeError` — none of the
typed errors of the taxonomy — while a malformed numeric part under a
valid or absent suffix raises `InitializeError`. -/
theorem C8_duration_suffix_errors :
    (∀ (v : ℤ) (l : List Char), l ≠ [] →
      isDig (l.getLastD ' ') = false →
      durLookup (l.getLastD ' ') = none →
      Duration.ParseFromHumanReadableCore v l = .error .runtimeError) ∧
    (∀ (v : ℤ) (l : List Char) (m : ℤ), l ≠ [] →
      isDig (l.getLastD ' ') = false →
      durLookup (l.getLastD ' ') = some m →
      pyIntParseCore l.dropLast = none →
      Duration.ParseFromHumanReadableCore v l = .error .initializeError) ∧
    (∀ (v : ℤ) (l : List Char), l ≠ [] →
      isDig (l.getLastD ' ') = true →
      pyIntParseCore l = none →
      Duration.ParseFromHumanReadableCore v l = .error .initializeError) ∧
    (durLookup 'w' = some 604800 ∧ durLookup 'd' = some 86400 ∧ durLookup 'h' = some 3600 ∧
      durLookup 'm' = some 60 ∧ durLookup 's' = some 1) ∧
    PyExc.runtimeError ≠ PyExc.decodeError ∧
    PyExc.runtimeError ≠ PyExc.initializeError ∧
    PyExc.runtimeError ≠ PyExc.valueError ∧
    PyExc.runtimeError ≠ PyExc.typeError := by
  refine ⟨?_, ?_, ?_, by decide, by decide, by decide, by decide, by decide⟩
  · intro v l hne hnd hlk
    unfold Duration.ParseFromHumanReadableCore
    rw [if_neg hne, if_neg (by simp only [hnd]; exact Bool.false_ne_true)]
    simp only [hlk]
  · intro v l m hne hnd hlk hint
    unfold Duration.ParseFromHumanReadableCore
    rw [if_neg hne, if_neg (by simp only [hnd]; exact Bool.false_ne_true)]
    simp only [hlk, hint]
  · intro v l hne hd hint
    unfold Duration.ParseFromHumanReadableCore
    rw [if_neg hne, if_pos hd]
    simp only [hint]

theorem C8_duration_suffix_errors_witness :
    Duration.ParseFromHumanReadableCore 0 "5x".data = .error .runtimeError ∧
    Duration.ParseFromHumanReadableCore 0 "a5s".data = .error .initializeError ∧
    Duration.ParseFromHumanReadableCore 0 "a5".data = .error .initializeError :=
  ⟨C8_duration_suffix_errors.1 0 "5x".data (by decide) (by decide) (by decide),
   C8_duration_suffix_errors.2.1 0 "a5s".data 1 (by decide) (by decide) (by decide) (by decide),
   C8_duration_suffix_errors.2.2.1 0 "a5".data (by decide) (by decide) (by decide)⟩

/-- C9: the claim (and spec §4.2) says a non-empty, non-numeric byte
string fails integer wire parsing with `DecodeError`.  The code's
`except TypeError` clause never matches: `int()` raises `ValueError`
for a malformed string, so the failure escapes as a bare `ValueError`
and the `DecodeError` wrapper is dead code — `b"abc"` is a failing
input. -/
theorem C9_integer_parse_valueerror :
    RDFInteger.ParseFromString "abc" = .error .valueError ∧
    PyExc.valueError ≠ PyExc.decodeError ∧
    RDFInteger.ParseFromString "" = .ok 0 ∧
    RDFInteger.ParseFromString "-42" = .ok (-42) := by
  decide

/-- C10: for every integer `Duration` payload, the ordered divider scan
of `__str__` terminates with a defined result: it renders
`<count><unit>` against the first — hence largest — divider of the
table that divides the payload evenly, and the final divider `s = 1`
divides every integer, so the scan never falls through to `None`. -/
theorem C10_duration_str_total (v : ℤ) :
    ∃ (label : Char) (d : ℤ), (label, d) ∈ Duration.DIVIDERS ∧ d ∣ v ∧
      durationStrScanCore v Duration.DIVIDERS = some (intToDecChars (v.fdiv d) ++ [label]) ∧
      ∀ l2 d2, (l2, d2) ∈ Duration.DIVIDERS → d2 ∣ v → d2 ≤ d := by
  obtain ⟨label, d, hmem, hlk, hnd, hpos, hdvd, hscan, hmax⟩ := durationScan_spec v
  exact ⟨label, d, hmem, hdvd, hscan, hmax⟩

end GrrRdf
